import Mathlib

/-!
Verification development for the voice-bot pipeline: the server request layer
(rate limiting, response cache, fallback extraction), the coordinator retry
logic, audio-capture silence gating, and worker-message handling, modelled
from the TypeScript sources.
-/

namespace VoiceBot

/-- Cache time-to-live in milliseconds (5 minutes), `CACHE_DURATION` in both
route variants. -/
def CACHE_DURATION : Nat := 300000

/-- Rate-limit window in milliseconds, from the rate-limited route variant. -/
def RATE_LIMIT_WINDOW : Nat := 60000

/-- Rate-limit ceiling per window, from the rate-limited route variant. -/
def RATE_LIMIT_MAX : Nat := 30

/-- Fallback content substituted when the upstream candidate text is missing
or empty (the JS expression uses a falsy check). -/
def fallbackText : String := "I couldn\x27t generate a response."

/-- Lower-casing of `.toLowerCase()`, character by character. -/
def strLower (s : String) : String := ⟨s.data.map Char.toLower⟩

/-- Whitespace trimming of `.trim()`: leading and trailing whitespace
characters are removed. -/
def strTrim (s : String) : String :=
  ⟨((s.data.dropWhile Char.isWhitespace).reverse.dropWhile
      Char.isWhitespace).reverse⟩

/-- Association-list lookup keyed by strings; later insertions are consed at
the front and shadow older entries, mirroring `Map.set` followed by
`Map.get`. -/
def lookupKey {β : Type} (m : List (String × β)) (k : String) : Option β :=
  match m with
  | [] => none
  | (k2, v) :: rest => if k2 = k then some v else lookupKey rest k

/-- One entry of the in-memory `responseCache` map. -/
structure CacheEntry where
  content : String
  timestamp : Nat
deriving DecidableEq, Repr

/-- The `responseCache` map, as a shadowing association list. -/
abbrev ResponseCache := List (String × CacheEntry)

/-- One entry of the `rateLimitMap`: request count and window start. -/
structure RateEntry where
  count : Nat
  timestamp : Nat
deriving DecidableEq, Repr

/-- The `rateLimitMap`, as a shadowing association list. -/
abbrev RateLimitMap := List (String × RateEntry)

/-- Outcome of the upstream completion fetch, as observed by the route code:
HTTP success carrying an optional first-candidate text (the optional-chaining
traversal), or a non-success HTTP status with a status message. -/
inductive UpstreamResult where
  | ok (candidate : Option String)
  | httpError (status : Nat) (statusMsg : String)
deriving DecidableEq, Repr

/-- The JSON response produced by a route handler, plus a ghost flag recording
whether the upstream fetch was issued during the call. -/
structure ChatResponse where
  status : Nat
  content : Option String
  error : Option String
  networkCalled : Bool
deriving DecidableEq, Repr

/-- Cache key of `src/app/api/chat/route.ts`:
`language ++ "-" ++ message.toLowerCase().trim()`. -/
def cacheKey (language message : String) : String :=
  language ++ "-" ++ strTrim (strLower message)

/-- The cache consultation of both route variants: an entry is served only if
present and `now - timestamp < CACHE_DURATION`. -/
def freshHit (cache : ResponseCache) (now : Nat) (key : String) : Option String :=
  match lookupKey cache key with
  | some e => if now - e.timestamp < CACHE_DURATION then some e.content else none
  | none => none

/-- Candidate-text extraction
`data.candidates?.[0]?.content?.parts?.[0]?.text || fallback`: an absent field
or an empty string (both falsy) yield the fallback. -/
def candidateText (c : Option String) : String :=
  match c with
  | some t => if t = "" then fallbackText else t
  | none => fallbackText

/-- The network branch shared by both route variants: on upstream HTTP failure
the handler throws and answers 500; on success it extracts the candidate text,
trims it, optionally stores it, and answers 200. -/
def chatNetwork (cache : ResponseCache) (now : Nat) (key : String)
    (enableCaching : Bool) (upstream : UpstreamResult) :
    ChatResponse × ResponseCache :=
  match upstream with
  | .httpError s _ =>
      ({ status := 500, content := none,
         error := some ("Gemini API error: " ++ toString s), networkCalled := true }, cache)
  | .ok cand =>
      let content := candidateText cand
      ({ status := 200, content := some (strTrim content), error := none,
         networkCalled := true },
       if enableCaching then (key, ⟨strTrim content, now⟩) :: cache else cache)

/-- `POST` of `src/app/api/chat/route.ts`: check the API key, consult the
cache under the locale-prefixed normalized key, otherwise take the network
branch. -/
def chatPOST (cache : ResponseCache) (now : Nat) (message : String)
    (enableCaching : Bool) (language : String) (apiKeyPresent : Bool)
    (upstream : UpstreamResult) : ChatResponse × ResponseCache :=
  if apiKeyPresent then
    let key := cacheKey language message
    match (if enableCaching then freshHit cache now key else none) with
    | some c =>
        ({ status := 200, content := some c, error := none, networkCalled := false }, cache)
    | none => chatNetwork cache now key enableCaching upstream
  else
    ({ status := 500, content := none, error := some "Gemini API key not configured",
       networkCalled := false }, cache)

/-- `checkRateLimit` of the rate-limited route variant: a missing entry or an
elapsed window (strictly more than `RATE_LIMIT_WINDOW` ms since the window
start) admits the request and resets the entry to count 1; a full window
(count at the ceiling) rejects; otherwise the count is incremented in
place. -/
def checkRateLimit (rl : RateLimitMap) (ip : String) (now : Nat) :
    Bool × RateLimitMap :=
  match lookupKey rl ip with
  | none => (true, (ip, ⟨1, now⟩) :: rl)
  | some e =>
      if RATE_LIMIT_WINDOW < now - e.timestamp then
        (true, (ip, ⟨1, now⟩) :: rl)
      else if RATE_LIMIT_MAX ≤ e.count then
        (false, rl)
      else
        (true, (ip, ⟨e.count + 1, e.timestamp⟩) :: rl)

/-- `POST` of the rate-limited route variant: the rate gate runs first and a
rejected request is answered 429 before any cache or upstream work; the rest
mirrors the chat route with the unprefixed key
`message.toLowerCase().trim()`. -/
def serverPOST0 (rl : RateLimitMap) (cache : ResponseCache) (ip : String)
    (now : Nat) (message : String) (enableCaching : Bool) (apiKeyPresent : Bool)
    (upstream : UpstreamResult) : ChatResponse × RateLimitMap × ResponseCache :=
  let gate := checkRateLimit rl ip now
  if gate.1 then
    if apiKeyPresent then
      let key := strTrim (strLower message)
      match (if enableCaching then freshHit cache now key else none) with
      | some c =>
          ({ status := 200, content := some c, error := none, networkCalled := false },
           gate.2, cache)
      | none =>
          let r := chatNetwork cache now key enableCaching upstream
          (r.1, gate.2, r.2)
    else
      ({ status := 500, content := none, error := some "Gemini API key not configured",
         networkCalled := false }, gate.2, cache)
  else
    ({ status := 429, content := none,
       error := some "Rate limit exceeded. Please try again later.",
       networkCalled := false }, gate.2, cache)

/-- Sequential processing of requests from one client against the rate
limiter, returning the admission verdicts in order. -/
def runRequests (ip : String) : RateLimitMap → List Nat → List Bool × RateLimitMap
  | rl, [] => ([], rl)
  | rl, t :: ts =>
      let g := checkRateLimit rl ip t
      let rest := runRequests ip g.2 ts
      (g.1 :: rest.1, rest.2)

/-- Observable outcome of one `callGemini` run: the returned or thrown value,
the number of attempts issued against the endpoint, and the list of backoff
waits (in ms) in order. -/
structure GeminiRun where
  result : Except String String
  attempts : Nat
  waits : List Nat
deriving Repr

/-- Message thrown by `callGemini` when the caught message is empty. -/
def retryExhaustMsg : String := "Failed to get AI response after retries"

/-- The recursive body of the coordinator function `callGemini`. The source
recurses with `attempt + 1` while `attempt < retryAttempts`; here `fuel`
stands for `retryAttempts - attempt`, so the guard `attempt < retryAttempts`
is exactly `fuel > 0`. Each attempt consults the endpoint (`oracle`), and a
failing attempt either waits `1000 * attempt` ms and retries, or rethrows its
message (with a default when the message is empty). -/
def callGeminiAux (oracle : Nat → Except String String) :
    Nat → Nat → GeminiRun
  | attempt, fuel =>
      match oracle attempt with
      | .ok v => ⟨.ok v, 1, []⟩
      | .error e =>
          match fuel with
          | 0 => ⟨.error (if e = "" then retryExhaustMsg else e), 1, []⟩
          | fuel2 + 1 =>
              let r := callGeminiAux oracle (attempt + 1) fuel2
              ⟨r.result, r.attempts + 1, 1000 * attempt :: r.waits⟩

/-- `callGemini(message)` of the coordinator, starting at attempt 1 with
retry budget `retryAttempts` taken from the settings. -/
def callGemini (oracle : Nat → Except String String) (retryAttempts : Nat) :
    GeminiRun :=
  callGeminiAux oracle 1 (retryAttempts - 1)

/-- The coordinator state touched by the pipeline handlers: transcript and
reply text, error banner, processing flag, per-stage latencies, the bounded
performance history, retry counter and worker status. -/
structure CoordState where
  transcript : String
  response : String
  error : String
  isProcessing : Bool
  latencyStt : Option Nat
  latencyApi : Option Nat
  latencyTts : Option Nat
  latencyTotal : Option Nat
  performanceHistory : List Nat
  retryCount : Nat
  whisperStatus : String
deriving DecidableEq, Repr

/-- `handleTranscriptComplete` of the coordinator, with the measured stage
durations passed in. On completion failure the error is surfaced and the
retry counter bumped; on completion success the reply and api latency are
recorded, then playback runs: a not-ready engine or a rejected `speak()` is
caught, surfacing a TTS error and recording the total latency, while only a
completed playback also records the tts latency and appends the cycle total
to the trailing history (`prev.slice(-9)` keeps the last nine entries). -/
def handleTranscriptComplete (st : CoordState) (apiResult : Except String String)
    (ttsReady : Bool) (speakResult : Except String Unit)
    (apiTime ttsTime totalTime : Nat) : CoordState :=
  let st1 := { st with error := "", retryCount := 0 }
  match apiResult with
  | .error e =>
      { st1 with
          error := if e = "" then "Failed to process your request." else e,
          retryCount := st1.retryCount + 1,
          isProcessing := false }
  | .ok resp =>
      let st2 := { st1 with latencyApi := some apiTime, response := resp }
      match (if ttsReady then speakResult else .error "TTS not ready") with
      | .ok _ =>
          { st2 with
              latencyTts := some ttsTime,
              latencyTotal := some totalTime,
              performanceHistory :=
                st2.performanceHistory.drop (st2.performanceHistory.length - 9)
                  ++ [totalTime],
              isProcessing := false }
      | .error msg =>
          { st2 with
              error := "TTS failed: " ++ msg,
              latencyTotal := some totalTime,
              isProcessing := false }

/-- A message posted by the transcription worker, as read by the coordinator
`onmessage` handler. -/
inductive WorkerMsg where
  | ready
  | loading (message : Option String)
  | transcript (text : String)
  | error (e : String)
deriving DecidableEq, Repr

/-- The coordinator `onmessage` switch. The second component records whether
`handleTranscriptComplete` was invoked (which is what issues the completion
request). A `transcript` message is acted on only when its text is truthy,
i.e. a nonempty string. -/
def onWorkerMessage (st : CoordState) (sttTime : Nat) (msg : WorkerMsg) :
    CoordState × Bool :=
  match msg with
  | .ready => ({ st with whisperStatus := "Ready" }, false)
  | .loading m =>
      ({ st with whisperStatus :=
          match m with
          | some s => if s = "" then "Loading..." else s
          | none => "Loading..." }, false)
  | .transcript text =>
      if text = "" then (st, false)
      else ({ st with transcript := text, latencyStt := some sttTime }, true)
  | .error e =>
      ({ st with error := "Speech recognition error: " ++ e,
                 isProcessing := false, whisperStatus := "Error" }, false)

/-- Text posted by the worker for a transcription result:
`result?.text?.trim() || ''`. -/
def workerTranscriptText (result : Option String) : String :=
  match result with
  | some t => strTrim t
  | none => ""

/-- Absolute value on the rationals, written so that it evaluates. -/
def ratAbs (q : ℚ) : ℚ := if q < 0 then -q else q

/-- Binary maximum on the rationals, written so that it evaluates. -/
def ratMax (a b : ℚ) : ℚ := if a ≤ b then b else a

/-- The near-silence threshold of the capture callback, the literal `0.01`. -/
def silenceThreshold : ℚ := mkRat 1 100

/-- `inputData.some(sample => Math.abs(sample) > threshold)`. -/
def hasSignal (block : List ℚ) : Bool :=
  block.any (fun s => decide (silenceThreshold < ratAbs s))

/-- Largest absolute sample amplitude of a block (0 for an empty block). -/
def maxAbs (block : List ℚ) : ℚ :=
  block.foldr (fun s m => ratMax (ratAbs s) m) 0

/-- The recorder state mutated by the capture callback. -/
structure RecorderState where
  audioChunks : List (List ℚ)
  isRecording : Bool
deriving DecidableEq, Repr

/-- The `onaudioprocess` callback: while recording, the block is handed to
the waveform observer when one is registered, and appended to the recording
buffer exactly when it carries a sample strictly above the threshold. The
second component records whether the block reached the waveform observer. -/
def processAudioBlock (callbackRegistered : Bool) (st : RecorderState)
    (block : List ℚ) : RecorderState × Bool :=
  if st.isRecording then
    (if hasSignal block then
       { st with audioChunks := st.audioChunks ++ [block] }
     else st,
     callbackRegistered)
  else (st, false)

/-- `stopRecording` of the recorder class: capture halts, and the accepted
blocks are concatenated in arrival order; when nothing was accepted a
zero-length buffer is returned (the early return that skips clearing the
chunk list). -/
def recorderStop (st : RecorderState) : List ℚ × RecorderState :=
  let st2 := { st with isRecording := false }
  let total := (st2.audioChunks.map List.length).sum
  if total = 0 then ([], st2)
  else (st2.audioChunks.flatten, { st2 with audioChunks := [] })

/-- One recording session: start with an empty buffer, then run the capture
callback over the emitted blocks (no waveform observer registered in the
production page). -/
def recordSession (blocks : List (List ℚ)) : RecorderState :=
  blocks.foldl (fun st b => (processAudioBlock false st b).1) ⟨[], true⟩

/-- Outcome of the coordinator `stopRecording` handler. -/
structure StopOutcome where
  recorder : RecorderState
  errorMsg : Option String
  postedTranscribe : Bool
  isProcessing : Bool
deriving DecidableEq, Repr

/-- The coordinator `stopRecording` handler: when a recording is active, the
recorder is stopped; an empty buffer surfaces the no-audio error and clears
the processing flag without posting to the worker, otherwise a `transcribe`
message is posted. -/
def coordStopRecording (isRecording wasProcessing : Bool)
    (rec : RecorderState) : StopOutcome :=
  if isRecording then
    let r := recorderStop rec
    if r.1.length = 0 then
      ⟨r.2, some "No audio data captured. Please try again.", false, false⟩
    else
      ⟨r.2, none, true, wasProcessing⟩
  else ⟨rec, none, false, wasProcessing⟩

/-- A rational is dyadic when it is an integer divided by a power of two;
every value of a 32-bit float sample is of this form. -/
def IsDyadic (s : ℚ) : Prop := ∃ (a : ℤ) (k : ℕ), s = (a : ℚ) / 2 ^ k

/-- The list `[a, a + 1, ..., a + j - 1]`: the attempt numbers of `j`
consecutive failing attempts starting at attempt `a`. -/
def waitIdx : Nat → Nat → List Nat
  | _, 0 => []
  | a, j + 1 => a :: waitIdx (a + 1) j

/-- C1: for every client identifier, the request layer admits at most 30
requests per 60-second window. The first request of a window sets the
counter to 1 and is admitted; a request within the window (at most 60000 ms
after the window start) with the counter below 30 is admitted and increments
the counter; with the counter at 30 the request is answered 429 and neither
the upstream API nor the caches are touched; a request arriving more than
60000 ms after the window start is admitted and resets the counter to 1.
Concretely, of 31 requests at one instant the first 30 are admitted and the
31st is refused. -/
theorem c1_rate_limit
    (rl : RateLimitMap) (cache : ResponseCache) (ip m : String)
    (now c ts : Nat) (caching apiKey : Bool) (u : UpstreamResult) :
    (lookupKey rl ip = none →
      checkRateLimit rl ip now = (true, (ip, ⟨1, now⟩) :: rl))
    ∧ (lookupKey rl ip = some ⟨c, ts⟩ → now - ts ≤ RATE_LIMIT_WINDOW →
        c < RATE_LIMIT_MAX →
      checkRateLimit rl ip now = (true, (ip, ⟨c + 1, ts⟩) :: rl))
    ∧ (lookupKey rl ip = some ⟨c, ts⟩ → now - ts ≤ RATE_LIMIT_WINDOW →
        RATE_LIMIT_MAX ≤ c →
      (serverPOST0 rl cache ip now m caching apiKey u).1.status = 429
      ∧ (serverPOST0 rl cache ip now m caching apiKey u).1.networkCalled = false
      ∧ (serverPOST0 rl cache ip now m caching apiKey u).2.1 = rl
      ∧ (serverPOST0 rl cache ip now m caching apiKey u).2.2 = cache)
    ∧ (lookupKey rl ip = some ⟨c, ts⟩ → RATE_LIMIT_WINDOW < now - ts →
      checkRateLimit rl ip now = (true, (ip, ⟨1, now⟩) :: rl))
    ∧ (runRequests "client" [] (List.replicate 31 5)).1
        = List.replicate 30 true ++ [false] := by
  refine ⟨?_, ?_, ?_, ?_, ?_⟩
  · intro h
    simp [checkRateLimit, h]
  · intro h h2 h3
    simp only [checkRateLimit, h]
    rw [if_neg (by omega), if_neg (by omega)]
  · intro h h2 h3
    have hgate : checkRateLimit rl ip now = (false, rl) := by
      simp only [checkRateLimit, h]
      rw [if_neg (by omega), if_pos (by omega)]
    simp [serverPOST0, hgate]
  · intro h h2
    simp only [checkRateLimit, h]
    rw [if_pos (by omega)]
  · decide

/-- Witness for C1: a client whose window counter stands at 30 is refused
with a 429 and no upstream call. -/
theorem c1_rate_limit_witness :
    (serverPOST0 [("ip1", ⟨30, 100⟩)] [] "ip1" 200 "hello" true true
        (UpstreamResult.ok (some "ok"))).1.status = 429
    ∧ (serverPOST0 [("ip1", ⟨30, 100⟩)] [] "ip1" 200 "hello" true true
        (UpstreamResult.ok (some "ok"))).1.networkCalled = false :=
  let h := (c1_rate_limit [("ip1", ⟨30, 100⟩)] [] "ip1" "hello" 200 30 100
      true true (UpstreamResult.ok (some "ok"))).2.2.1
    (by decide) (by decide) (by decide)
  ⟨h.1, h.2.1⟩

/-- C2: with caching enabled, after a completion for `m` served from the
network, a second call within the TTL whose message has the same lower-cased
trimmed form (same locale) issues no upstream request and returns exactly the
text of the first call, because the key is the locale-prefixed lower-cased
trimmed message and the stored value is the trimmed response text. -/
theorem c2_cache_normalized_replay
    (st : ResponseCache) (now now2 : Nat) (m m2 lang : String)
    (c : Option String) (u2 : UpstreamResult)
    (hmiss : freshHit st now (cacheKey lang m) = none)
    (hnorm : strTrim (strLower m2) = strTrim (strLower m))
    (httl : now2 - now < CACHE_DURATION) :
    (chatPOST st now m true lang true (UpstreamResult.ok c)).1.status = 200
    ∧ (chatPOST st now m true lang true (UpstreamResult.ok c)).1.networkCalled
        = true
    ∧ (chatPOST (chatPOST st now m true lang true (UpstreamResult.ok c)).2
        now2 m2 true lang true u2).1.networkCalled = false
    ∧ (chatPOST (chatPOST st now m true lang true (UpstreamResult.ok c)).2
        now2 m2 true lang true u2).1.content
      = (chatPOST st now m true lang true (UpstreamResult.ok c)).1.content := by
  have hkey : cacheKey lang m2 = cacheKey lang m := by
    simp [cacheKey, hnorm]
  have h1 : chatPOST st now m true lang true (UpstreamResult.ok c)
      = ({ status := 200, content := some (strTrim (candidateText c)),
           error := none, networkCalled := true },
         (cacheKey lang m, ⟨strTrim (candidateText c), now⟩) :: st) := by
    simp [chatPOST, hmiss, chatNetwork]
  have h2 : freshHit ((cacheKey lang m, ⟨strTrim (candidateText c), now⟩) :: st)
      now2 (cacheKey lang m2) = some (strTrim (candidateText c)) := by
    rw [hkey]
    simp [freshHit, lookupKey, httl]
  rw [h1]
  refine ⟨rfl, rfl, ?_, ?_⟩ <;> simp [chatPOST, h2]

/-- Witness for C2: a first call for `"Hello"` is answered from the network
and cached; a call for `"  hello  "` 1000 ms later is served from the cache
with the identical text even though the upstream would now fail. -/
theorem c2_cache_normalized_replay_witness :
    (chatPOST (chatPOST [] 0 "Hello" true "en" true
          (UpstreamResult.ok (some "Hi there"))).2
        1000 "  hello  " true "en" true
        (UpstreamResult.httpError 500 "x")).1.networkCalled = false
    ∧ (chatPOST (chatPOST [] 0 "Hello" true "en" true
          (UpstreamResult.ok (some "Hi there"))).2
        1000 "  hello  " true "en" true
        (UpstreamResult.httpError 500 "x")).1.content
      = (chatPOST [] 0 "Hello" true "en" true
          (UpstreamResult.ok (some "Hi there"))).1.content :=
  let h := c2_cache_normalized_replay [] 0 1000 "Hello" "  hello  " "en"
    (some "Hi there") (UpstreamResult.httpError 500 "x")
    (by decide) (by decide) (by decide)
  ⟨h.2.2.1, h.2.2.2⟩

/-- C3: a cache entry whose age exceeds the 5-minute TTL is ignored by the
lookup and the fresh network path is taken; the expired-entry lookup itself
evicts nothing (a failing upstream leaves the cache exactly as it was); and
conversely every cache-served response comes from an entry whose age is
within the TTL, so text older than the TTL is never returned. -/
theorem c3_ttl_expiry
    (st : ResponseCache) (now : Nat) (m lang : String) (c : Option String)
    (e : CacheEntry)
    (hent : lookupKey st (cacheKey lang m) = some e)
    (hexp : CACHE_DURATION < now - e.timestamp) :
    ((chatPOST st now m true lang true (UpstreamResult.ok c)).1.networkCalled
        = true
      ∧ (chatPOST st now m true lang true (UpstreamResult.ok c)).1.content
          = some (strTrim (candidateText c)))
    ∧ (∀ s smsg,
        (chatPOST st now m true lang true (UpstreamResult.httpError s smsg)).2
          = st)
    ∧ (∀ (now2 : Nat) (m2 : String) (u : UpstreamResult),
        (chatPOST st now2 m2 true lang true u).1.networkCalled = false →
        ∃ e2, lookupKey st (cacheKey lang m2) = some e2
          ∧ now2 - e2.timestamp < CACHE_DURATION
          ∧ (chatPOST st now2 m2 true lang true u).1.content
              = some e2.content) := by
  have hfresh : freshHit st now (cacheKey lang m) = none := by
    simp only [freshHit, hent]
    rw [if_neg (by omega)]
  refine ⟨⟨?_, ?_⟩, ?_, ?_⟩
  · simp [chatPOST, hfresh, chatNetwork]
  · simp [chatPOST, hfresh, chatNetwork]
  · intro s smsg
    simp [chatPOST, hfresh, chatNetwork]
  · intro now2 m2 u hnc
    cases hfh : freshHit st now2 (cacheKey lang m2) with
    | none =>
        exfalso
        cases u <;> simp [chatPOST, hfh, chatNetwork] at hnc
    | some v =>
        have hcontent :
            (chatPOST st now2 m2 true lang true u).1.content = some v := by
          simp [chatPOST, hfh]
        cases hk : lookupKey st (cacheKey lang m2) with
        | none => simp [freshHit, hk] at hfh
        | some e2 =>
            simp only [freshHit, hk] at hfh
            by_cases hage : now2 - e2.timestamp < CACHE_DURATION
            · rw [if_pos hage] at hfh
              refine ⟨e2, rfl, hage, ?_⟩
              rw [hcontent, ← hfh]
            · rw [if_neg hage] at hfh
              exact absurd hfh (by simp)

/-- Witness for C3: an entry cached at time 0 is ignored at time 400000 and
the request is answered from the network. -/
theorem c3_ttl_expiry_witness :
    (chatPOST [(cacheKey "en" "Hello", ⟨"old", 0⟩)] 400000 "Hello" true "en"
        true (UpstreamResult.ok (some "fresh"))).1.networkCalled = true
    ∧ (chatPOST [(cacheKey "en" "Hello", ⟨"old", 0⟩)] 400000 "Hello" true "en"
        true (UpstreamResult.ok (some "fresh"))).1.content
      = some (strTrim (candidateText (some "fresh"))) :=
  (c3_ttl_expiry [(cacheKey "en" "Hello", ⟨"old", 0⟩)] 400000 "Hello" "en"
    (some "fresh") ⟨"old", 0⟩ (by decide) (by decide)).1

/-- Mapping the linear backoff over a list of attempt numbers multiplies the
sum by the backoff unit. -/
theorem sum_map_backoff (l : List Nat) :
    (l.map (fun i => 1000 * i)).sum = 1000 * l.sum := by
  induction l with
  | nil => simp
  | cons x xs ih => simp [List.sum_cons, ih, Nat.mul_add]

/-- Twice the sum of `j` consecutive attempt numbers starting at `a`. -/
theorem waitIdx_sum (j : Nat) :
    ∀ a : Nat, 2 * (waitIdx a j).sum = j * (2 * a + j - 1) := by
  induction j with
  | zero => intro a; simp [waitIdx]
  | succ j ih =>
      intro a
      have h1 : 2 * (a + 1) + j - 1 = 2 * a + j + 1 := by omega
      have h2 : 2 * a + (j + 1) - 1 = 2 * a + j := by omega
      have ih2 := ih (a + 1)
      rw [h1] at ih2
      simp only [waitIdx, List.sum_cons, h2, Nat.mul_add, ih2]
      ring

/-- One-step unfolding of `callGeminiAux`, stated so that rewriting is
controlled. -/
theorem callGeminiAux_unfold (oracle : Nat → Except String String)
    (a fuel : Nat) :
    callGeminiAux oracle a fuel =
      match oracle a with
      | .ok v => ⟨.ok v, 1, []⟩
      | .error e =>
          match fuel with
          | 0 => ⟨.error (if e = "" then retryExhaustMsg else e), 1, []⟩
          | fuel2 + 1 =>
              let r := callGeminiAux oracle (a + 1) fuel2
              ⟨r.result, r.attempts + 1, 1000 * a :: r.waits⟩ := by
  rw [callGeminiAux.eq_def]

/-- When every attempt from `a` through `a + fuel` fails, the run makes all
`fuel + 1` attempts, waits `1000 * i` ms after failing attempt `i` for each
non-final attempt, and ends with the final failure (message defaulted when
empty). -/
theorem callGeminiAux_allFail (oracle : Nat → Except String String)
    (e : Nat → String) (fuel : Nat) :
    ∀ a : Nat, (∀ i, a ≤ i → i ≤ a + fuel → oracle i = Except.error (e i)) →
    callGeminiAux oracle a fuel =
      ⟨Except.error
         (if e (a + fuel) = "" then retryExhaustMsg else e (a + fuel)),
       fuel + 1, (waitIdx a fuel).map (fun i => 1000 * i)⟩ := by
  induction fuel with
  | zero =>
      intro a h
      have ha := h a (Nat.le_refl a) (by omega)
      rw [callGeminiAux_unfold, ha]
      simp [waitIdx]
  | succ fuel ih =>
      intro a h
      have ha := h a (Nat.le_refl a) (by omega)
      have ih2 := ih (a + 1) (fun i h1 h2 => h i (by omega) (by omega))
      have harith : a + 1 + fuel = a + (fuel + 1) := by omega
      rw [harith] at ih2
      rw [callGeminiAux_unfold, ha]
      simp only [ih2, waitIdx, List.map_cons]

/-- When the attempts from `a` up to (excluding) `a + j` fail, `a + j`
succeeds, and the retry budget allows those `j` retries, the run returns the
success value after exactly the `j` backoff waits. -/
theorem callGeminiAux_eventualSuccess (oracle : Nat → Except String String)
    (v : String) (j : Nat) :
    ∀ a fuel : Nat, j ≤ fuel →
    (∀ i, a ≤ i → i < a + j → ∃ msg, oracle i = Except.error msg) →
    oracle (a + j) = Except.ok v →
    (callGeminiAux oracle a fuel).result = Except.ok v
    ∧ (callGeminiAux oracle a fuel).waits
        = (waitIdx a j).map (fun i => 1000 * i) := by
  induction j with
  | zero =>
      intro a fuel hj hfail hsucc
      rw [Nat.add_zero] at hsucc
      rw [callGeminiAux_unfold, hsucc]
      simp [waitIdx]
  | succ j ih =>
      intro a fuel hj hfail hsucc
      obtain ⟨msg, hmsg⟩ := hfail a (Nat.le_refl a) (by omega)
      cases fuel with
      | zero => omega
      | succ f =>
          have harith : a + 1 + j = a + (j + 1) := by omega
          have ih2 := ih (a + 1) f (by omega)
            (fun i h1 h2 => hfail i (by omega) (by omega))
            (by rw [harith]; exact hsucc)
          rw [callGeminiAux_unfold, hmsg]
          simp [ih2.1, ih2.2, waitIdx]

/-- Counterexample for C4: with `maxRetries = 2` and an endpoint that always
fails, `callGemini` makes only 2 attempts in total, not the 3 attempts that
"2 retries in addition to the first attempt" would give. -/
theorem c4_retry_budget_counterexample :
    (callGemini (fun _ => Except.error "network down") 2).attempts = 2
    ∧ (callGemini (fun _ => Except.error "network down") 2).attempts
        ≠ 2 + 1 := by
  constructor <;> decide

/-- C4 (amended): on persistent failure `callGemini` retries up to
`maxRetries - 1` times in addition to the first attempt, so `maxRetries`
attempts in total, waiting `attempt * 1000` ms before each retry, and the
failure message of the final attempt is surfaced as-is (when nonempty). -/
theorem c4_retry_budget (oracle : Nat → Except String String)
    (e : Nat → String) (n : Nat) (hn : 1 ≤ n)
    (hfail : ∀ i, 1 ≤ i → i ≤ n → oracle i = Except.error (e i))
    (hne : e n ≠ "") :
    (callGemini oracle n).attempts = n
    ∧ (callGemini oracle n).waits = (waitIdx 1 (n - 1)).map (fun i => 1000 * i)
    ∧ (callGemini oracle n).result = Except.error (e n) := by
  have h := callGeminiAux_allFail oracle e (n - 1) 1
    (fun i h1 h2 => hfail i h1 (by omega))
  have harith : 1 + (n - 1) = n := by omega
  rw [harith] at h
  unfold callGemini
  rw [h]
  refine ⟨?_, rfl, ?_⟩
  · show n - 1 + 1 = n
    omega
  · show Except.error (if e n = "" then retryExhaustMsg else e n)
        = Except.error (e n)
    rw [if_neg hne]

/-- Witness for C4 (amended): with `maxRetries = 3` and a persistently
failing endpoint there are 3 attempts, backoff waits of 1000 and 2000 ms,
and the final message is surfaced. -/
theorem c4_retry_budget_witness :
    (callGemini (fun _ => Except.error "fail") 3).attempts = 3
    ∧ (callGemini (fun _ => Except.error "fail") 3).waits
        = (waitIdx 1 (3 - 1)).map (fun i => 1000 * i)
    ∧ (callGemini (fun _ => Except.error "fail") 3).result
        = Except.error "fail" :=
  c4_retry_budget (fun _ => Except.error "fail") (fun _ => "fail") 3
    (by decide) (fun _ _ _ => rfl) (by decide)

/-- C5: if the completion call fails on the first `k` attempts and succeeds
on attempt `k + 1`, with `k < maxRetries`, then `callGemini` returns the
success value having waited cumulatively at least
`1000 * (1 + 2 + ... + k)` ms. -/
theorem c5_transient_retry (oracle : Nat → Except String String) (v : String)
    (k n : Nat) (hk : k < n)
    (hfail : ∀ i, 1 ≤ i → i ≤ k → ∃ msg, oracle i = Except.error msg)
    (hsucc : oracle (k + 1) = Except.ok v) :
    (callGemini oracle n).result = Except.ok v
    ∧ 1000 * (k * (k + 1) / 2) ≤ (callGemini oracle n).waits.sum := by
  have h := callGeminiAux_eventualSuccess oracle v k 1 (n - 1) (by omega)
    (fun i h1 h2 => hfail i h1 (by omega))
    (by rw [Nat.add_comm]; exact hsucc)
  unfold callGemini
  refine ⟨h.1, ?_⟩
  rw [h.2, sum_map_backoff]
  have h2 := waitIdx_sum k 1
  have h3 : 2 * 1 + k - 1 = k + 1 := by omega
  rw [h3] at h2
  have h4 : k * (k + 1) / 2 = (waitIdx 1 k).sum := by
    rw [← h2]
    omega
  rw [h4]

/-- Witness for C5: two transient failures then a success with
`maxRetries = 3`: the value is returned and at least 3000 ms were waited. -/
theorem c5_transient_retry_witness :
    (callGemini (fun i => if i ≤ 2 then Except.error "t" else Except.ok "v")
        3).result = Except.ok "v"
    ∧ 1000 * (2 * (2 + 1) / 2)
        ≤ (callGemini
            (fun i => if i ≤ 2 then Except.error "t" else Except.ok "v")
            3).waits.sum :=
  c5_transient_retry (fun i => if i ≤ 2 then Except.error "t" else Except.ok "v")
    "v" 2 3 (by decide)
    (fun i _ h2 => ⟨"t", by simp [h2]⟩)
    rfl

/-- `ratAbs` agrees with the absolute value. -/
theorem ratAbs_eq_abs (q : ℚ) : ratAbs q = |q| := by
  unfold ratAbs
  split
  · exact (abs_of_neg (by assumption)).symm
  · next h => exact (abs_of_nonneg (le_of_not_lt h)).symm

/-- The left argument is below `ratMax`. -/
theorem left_le_ratMax (a b : ℚ) : a ≤ ratMax a b := by
  unfold ratMax
  split
  · assumption
  · exact le_refl a

/-- The right argument is below `ratMax`. -/
theorem right_le_ratMax (a b : ℚ) : b ≤ ratMax a b := by
  unfold ratMax
  split
  · exact le_refl b
  · next h => exact le_of_not_le h

/-- Every sample amplitude is bounded by `maxAbs` of its block. -/
theorem ratAbs_le_maxAbs (block : List ℚ) (s : ℚ) (hs : s ∈ block) :
    ratAbs s ≤ maxAbs block := by
  induction block with
  | nil => cases hs
  | cons x xs ih =>
      rcases List.mem_cons.mp hs with h | h
      · rw [h]
        exact left_le_ratMax _ _
      · exact le_trans (ih h) (right_le_ratMax _ _)

/-- `maxAbs` is 0 or attained at some sample of the block. -/
theorem maxAbs_attained (block : List ℚ) :
    maxAbs block = 0 ∨ ∃ s ∈ block, maxAbs block = ratAbs s := by
  induction block with
  | nil => exact Or.inl rfl
  | cons x xs ih =>
      show (ratMax (ratAbs x) (maxAbs xs) = 0
          ∨ ∃ s ∈ x :: xs, ratMax (ratAbs x) (maxAbs xs) = ratAbs s)
      unfold ratMax
      split
      · rcases ih with h | ⟨s, hsmem, hseq⟩
        · exact Or.inl h
        · exact Or.inr ⟨s, List.mem_cons_of_mem x hsmem, hseq⟩
      · exact Or.inr ⟨x, List.mem_cons_self x xs, rfl⟩

/-- The threshold is positive. -/
theorem silenceThreshold_pos : 0 < silenceThreshold := by decide

/-- No dyadic rational equals the threshold `1 / 100`: a power of two is not
divisible by 5. -/
theorem dyadic_ne_silenceThreshold (q : ℚ) (h : IsDyadic q) :
    q ≠ silenceThreshold := by
  obtain ⟨a, k, rfl⟩ := h
  intro heq
  have hst : silenceThreshold = (1 : ℚ) / 100 := by
    unfold silenceThreshold
    rw [Rat.mkRat_eq_div]
    norm_num
  rw [hst] at heq
  have h2 : (0 : ℚ) < 2 ^ k := by positivity
  have hcross : (a : ℚ) * 100 = 2 ^ k := by
    rw [div_eq_div_iff (by positivity) (by norm_num)] at heq
    linarith
  have hz : a * 100 = 2 ^ k := by exact_mod_cast hcross
  have h5 : Prime (5 : ℤ) := by norm_num
  have hdvd : (5 : ℤ) ∣ 2 ^ k := ⟨a * 20, by linarith⟩
  have := h5.dvd_of_dvd_pow hdvd
  norm_num at this

/-- `ratAbs` preserves dyadicity. -/
theorem isDyadic_ratAbs (q : ℚ) (h : IsDyadic q) : IsDyadic (ratAbs q) := by
  obtain ⟨a, k, rfl⟩ := h
  unfold ratAbs
  split
  · exact ⟨-a, k, by push_cast; ring⟩
  · exact ⟨a, k, rfl⟩

/-- A block whose loudest sample stays below the threshold has no signal. -/
theorem hasSignal_false_of_small (block : List ℚ)
    (h : maxAbs block < silenceThreshold) : hasSignal block = false := by
  rw [← Bool.not_eq_true]
  intro habs
  obtain ⟨s, hsmem, hslt⟩ := List.any_eq_true.mp habs
  have h1 : silenceThreshold < ratAbs s := of_decide_eq_true hslt
  have h2 : ratAbs s ≤ maxAbs block := ratAbs_le_maxAbs block s hsmem
  linarith

/-- For a block of float-representable (dyadic) samples, the signal test is
exactly "the loudest amplitude is not below the threshold". -/
theorem hasSignal_iff_of_dyadic (block : List ℚ)
    (hdyad : ∀ s ∈ block, IsDyadic s) :
    hasSignal block = true ↔ silenceThreshold ≤ maxAbs block := by
  constructor
  · intro habs
    obtain ⟨s, hsmem, hslt⟩ := List.any_eq_true.mp habs
    have h1 : silenceThreshold < ratAbs s := of_decide_eq_true hslt
    exact le_of_lt (lt_of_lt_of_le h1 (ratAbs_le_maxAbs block s hsmem))
  · intro hle
    rcases maxAbs_attained block with h0 | ⟨s, hsmem, hseq⟩
    · rw [h0] at hle
      exact absurd (lt_of_lt_of_le silenceThreshold_pos hle)
        (lt_irrefl 0)
    · have hne : ratAbs s ≠ silenceThreshold := fun hc =>
        dyadic_ne_silenceThreshold (ratAbs s)
          (isDyadic_ratAbs s (hdyad s hsmem)) hc
      have hlt : silenceThreshold < ratAbs s := by
        rw [hseq] at hle
        exact lt_of_le_of_ne hle (Ne.symm hne)
      exact List.any_eq_true.mpr ⟨s, hsmem, decide_eq_true hlt⟩

/-- C6: while recording, an emitted block is appended to the recording
buffer exactly when its maximum absolute sample amplitude is not below the
threshold 0.01 (over float-representable, i.e. dyadic, sample values, where
equality with the threshold cannot occur); the block reaches the waveform
observer exactly when one is registered; and a block whose maximum amplitude
is below the threshold leaves the recording buffer unchanged. -/
theorem c6_silence_gate (st : RecorderState) (block : List ℚ) (cb : Bool)
    (hrec : st.isRecording = true)
    (hdyad : ∀ s ∈ block, IsDyadic s) :
    ((processAudioBlock cb st block).1.audioChunks
        = st.audioChunks ++ [block] ↔ silenceThreshold ≤ maxAbs block)
    ∧ (processAudioBlock cb st block).2 = cb
    ∧ (maxAbs block < silenceThreshold →
        (processAudioBlock cb st block).1.audioChunks = st.audioChunks) := by
  have hne : st.audioChunks ≠ st.audioChunks ++ [block] := by
    intro hc
    have := congrArg List.length hc
    simp at this
  cases hsig : hasSignal block with
  | true =>
      refine ⟨?_, ?_, ?_⟩
      · simp only [processAudioBlock, hrec, if_true, hsig]
        constructor
        · intro _
          exact (hasSignal_iff_of_dyadic block hdyad).mp hsig
        · intro _
          trivial
      · simp [processAudioBlock, hrec]
      · intro hlt
        rw [hasSignal_false_of_small block hlt] at hsig
        cases hsig
  | false =>
      refine ⟨?_, ?_, ?_⟩
      · simp only [processAudioBlock, hrec, if_true, hsig]
        constructor
        · intro hc
          exact absurd hc hne
        · intro hle
          have := (hasSignal_iff_of_dyadic block hdyad).mpr hle
          rw [this] at hsig
          cases hsig
      · simp [processAudioBlock, hrec]
      · intro _
        simp [processAudioBlock, hrec, hsig]

/-- Witness for C6: a block containing the sample 1/2 (dyadic, above the
threshold) is appended to the recording buffer and reaches the registered
waveform observer. -/
theorem c6_silence_gate_witness :
    (processAudioBlock true ⟨[], true⟩ [mkRat 1 2]).1.audioChunks
        = [] ++ [[mkRat 1 2]]
    ∧ (processAudioBlock true ⟨[], true⟩ [mkRat 1 2]).2 = true :=
  let h := c6_silence_gate ⟨[], true⟩ [mkRat 1 2] true rfl
    (fun s hs => by
      rw [List.mem_singleton.mp hs]
      exact ⟨1, 1, by rw [Rat.mkRat_eq_div]; norm_num⟩)
  ⟨h.1.mpr (by decide), h.2.1⟩

/-- The recorder state is unchanged over a run of signal-free blocks. -/
theorem recordSession_silent (blocks : List (List ℚ))
    (h : ∀ b ∈ blocks, hasSignal b = false) :
    recordSession blocks = ⟨[], true⟩ := by
  induction blocks with
  | nil => rfl
  | cons b bs ih =>
      have hb : (processAudioBlock false ⟨[], true⟩ b).1
          = (⟨[], true⟩ : RecorderState) := by
        simp [processAudioBlock, h b (List.mem_cons_self b bs)]
      show List.foldl _ ((processAudioBlock false ⟨[], true⟩ b).1) bs
          = (⟨[], true⟩ : RecorderState)
      rw [hb]
      exact ih (fun b2 hb2 => h b2 (List.mem_cons_of_mem b hb2))

/-- C7: when every captured block stays below the silence threshold, the
recorder returns a zero-length buffer, and the coordinator stop handler
surfaces the no-audio error and ends the cycle without posting a transcribe
message to the worker. -/
theorem c7_silent_session (blocks : List (List ℚ))
    (hsilent : ∀ b ∈ blocks, maxAbs b < silenceThreshold) :
    (recorderStop (recordSession blocks)).1 = []
    ∧ (coordStopRecording true true (recordSession blocks)).errorMsg
        = some "No audio data captured. Please try again."
    ∧ (coordStopRecording true true
        (recordSession blocks)).postedTranscribe = false
    ∧ (coordStopRecording true true (recordSession blocks)).isProcessing
        = false := by
  have hs : recordSession blocks = ⟨[], true⟩ :=
    recordSession_silent blocks
      (fun b hb => hasSignal_false_of_small b (hsilent b hb))
  rw [hs]
  exact ⟨rfl, rfl, rfl, rfl⟩

/-- Witness for C7: one block whose loudest sample is 1/200 (below 0.01)
produces a zero-length buffer, the no-audio error, and no worker message. -/
theorem c7_silent_session_witness :
    (recorderStop (recordSession [[mkRat 1 200, 0]])).1 = []
    ∧ (coordStopRecording true true
        (recordSession [[mkRat 1 200, 0]])).postedTranscribe = false :=
  let h := c7_silent_session [[mkRat 1 200, 0]]
    (fun b hb => by
      rw [List.mem_singleton.mp hb]
      decide)
  ⟨h.1, h.2.2.1⟩

/-- Counterexample for C8: on an HTTP-success upstream response whose first
candidate text is present but empty, the handler answers with the fallback
string, not with the trimmed candidate text (which would be the empty
string) — the falsy check conflates an empty text with an absent one. -/
theorem c8_fallback_counterexample :
    (chatPOST [] 0 "hi" true "en" true
        (UpstreamResult.ok (some ""))).1.content = some fallbackText
    ∧ (chatPOST [] 0 "hi" true "en" true
        (UpstreamResult.ok (some ""))).1.content ≠ some (strTrim "") := by
  constructor <;> decide

/-- C8 (amended): when the upstream responds with HTTP success the handler
always answers 200; an absent or empty first-candidate text yields the fixed
fallback string; and for a nonempty candidate text the answered content is
the trimmed candidate text. -/
theorem c8_fallback (now : Nat) (m lang : String) (caching : Bool) :
    (∀ c, (chatPOST [] now m caching lang true
        (UpstreamResult.ok c)).1.status = 200)
    ∧ (chatPOST [] now m caching lang true
        (UpstreamResult.ok none)).1.content = some fallbackText
    ∧ (chatPOST [] now m caching lang true
        (UpstreamResult.ok (some ""))).1.content = some fallbackText
    ∧ (∀ t, t ≠ "" → (chatPOST [] now m caching lang true
        (UpstreamResult.ok (some t))).1.content = some (strTrim t)) := by
  have htrim : strTrim fallbackText = fallbackText := by decide
  refine ⟨?_, ?_, ?_, ?_⟩
  · intro c
    cases caching <;> simp [chatPOST, freshHit, lookupKey, chatNetwork]
  · cases caching <;>
      simp [chatPOST, freshHit, lookupKey, chatNetwork, candidateText, htrim]
  · cases caching <;>
      simp [chatPOST, freshHit, lookupKey, chatNetwork, candidateText, htrim]
  · intro t ht
    cases caching <;>
      simp [chatPOST, freshHit, lookupKey, chatNetwork, candidateText, ht]

/-- Witness for C8 (amended): a nonempty candidate with surrounding
whitespace is answered as its trimmed text. -/
theorem c8_fallback_witness :
    (chatPOST [] 0 "Hello" true "en" true
        (UpstreamResult.ok (some " Hi there "))).1.content
      = some (strTrim " Hi there ") :=
  (c8_fallback 0 "Hello" "en" true).2.2.2 " Hi there " (by decide)

/-- Counterexample for C9: a cycle whose playback rejects does not append
the cycle total to the performance history — the history stays empty where
the claim requires `[1200]`. -/
theorem c9_history_counterexample :
    (handleTranscriptComplete
        ⟨"hello there", "", "", true, some 400, none, none, none, [], 0,
          "Ready"⟩
        (Except.ok "Hi! How can I help?") true (Except.error "interrupted")
        500 300 1200).performanceHistory = []
    ∧ (handleTranscriptComplete
        ⟨"hello there", "", "", true, some 400, none, none, none, [], 0,
          "Ready"⟩
        (Except.ok "Hi! How can I help?") true (Except.error "interrupted")
        500 300 1200).performanceHistory ≠ [1200] := by
  constructor <;> decide

/-- C9 (amended): a rejection of `speak()` is terminal for the cycle: the
transcript is untouched and the reply set before playback remains, the api
and total latencies are recorded, the speech error is surfaced as a message,
and the processing flag is cleared — but the cycle total is appended to the
bounded performance history only on playback success, so on rejection the
history is left unchanged. -/
theorem c9_speak_failure (st : CoordState) (resp msg : String)
    (ttsReady : Bool) (speakResult : Except String Unit)
    (apiTime ttsTime totalTime : Nat)
    (hfail : (if ttsReady then speakResult else Except.error "TTS not ready")
        = Except.error msg) :
    (handleTranscriptComplete st (Except.ok resp) ttsReady speakResult
        apiTime ttsTime totalTime).transcript = st.transcript
    ∧ (handleTranscriptComplete st (Except.ok resp) ttsReady speakResult
        apiTime ttsTime totalTime).response = resp
    ∧ (handleTranscriptComplete st (Except.ok resp) ttsReady speakResult
        apiTime ttsTime totalTime).latencyApi = some apiTime
    ∧ (handleTranscriptComplete st (Except.ok resp) ttsReady speakResult
        apiTime ttsTime totalTime).latencyTotal = some totalTime
    ∧ (handleTranscriptComplete st (Except.ok resp) ttsReady speakResult
        apiTime ttsTime totalTime).performanceHistory = st.performanceHistory
    ∧ (handleTranscriptComplete st (Except.ok resp) ttsReady speakResult
        apiTime ttsTime totalTime).error = "TTS failed: " ++ msg
    ∧ (handleTranscriptComplete st (Except.ok resp) ttsReady speakResult
        apiTime ttsTime totalTime).isProcessing = false := by
  simp only [handleTranscriptComplete, hfail]
  simp

/-- Witness for C9 (amended): a concrete rejected playback leaves the
history `[111]` unchanged and surfaces the speech error. -/
theorem c9_speak_failure_witness :
    (handleTranscriptComplete
        ⟨"t", "", "", true, none, none, none, none, [111], 0, "Ready"⟩
        (Except.ok "Hi") true (Except.error "interrupted")
        500 300 1200).performanceHistory = [111]
    ∧ (handleTranscriptComplete
        ⟨"t", "", "", true, none, none, none, none, [111], 0, "Ready"⟩
        (Except.ok "Hi") true (Except.error "interrupted")
        500 300 1200).error = "TTS failed: " ++ "interrupted" :=
  let h := c9_speak_failure
    ⟨"t", "", "", true, none, none, none, none, [111], 0, "Ready"⟩
    "Hi" "interrupted" true (Except.error "interrupted") 500 300 1200 rfl
  ⟨h.2.2.2.2.1, h.2.2.2.2.2.1⟩

/-- C10: the worker can post a transcript whose text is the empty string
(its text is the trimmed model output, defaulted to the empty string), and
on such a message the coordinator does nothing at all: the state is
unchanged — no transcript stored, no speech-to-text latency recorded, the
processing flag not cleared — and `handleTranscriptComplete` (which issues
the completion request) is not invoked. -/
theorem c10_empty_transcript_ignored :
    workerTranscriptText none = ""
    ∧ workerTranscriptText (some "   ") = ""
    ∧ ∀ (st : CoordState) (sttTime : Nat),
        onWorkerMessage st sttTime (WorkerMsg.transcript "") = (st, false) := by
  refine ⟨rfl, by decide, ?_⟩
  intro st sttTime
  simp [onWorkerMessage]

end VoiceBot
